import Mathlib

/-!
Shallow embedding of the LCD clock firmware core (src/LCDClock.ino).

The embedding models the 64 Hz periodic-interrupt handler `ISR(RTC_PIT_vect)`
and the renderers `DisplayTime`, `DisplayVoltage`, `DisplayTemp` as pure
functions.  Machine integers are modelled as `Nat` (or `Int` where the C code
uses a signed `int`) with explicit reductions modulo 2^8 / 2^16 / 2^32 at the
points where the C types truncate.  On the AVR128DA48, `int` and
`unsigned int` are 16 bits and `unsigned long` is 32 bits; `abs` is the
Arduino macro `((x)>0?(x):-(x))`, and C `/` and `%` on `int` truncate toward
zero (`Int.tdiv` / `Int.tmod`).

Port writes performed by the handler are modelled as a trace of `PortOp`
events in source order, so that statements about "what was written this tick"
and "each display line is inverted once per tick" can be made without
modelling the memory-mapped registers themselves.  An out-of-bounds read of
the `Char` glyph table (undefined behaviour in C) is modelled as `none`.
-/

namespace LCDClock

/-- `const int CharLen = 15;` -/
def CharLen : ℕ := 15

/-- `uint8_t Char[CharLen]` — seven-segment patterns, `abcdefg` bit order. -/
def Char : List ℕ :=
  [0b1111110,  -- 0
   0b0110000,  -- 1
   0b1101101,  -- 2
   0b1111001,  -- 3
   0b0110011,  -- 4
   0b1011011,  -- 5
   0b1011111,  -- 6
   0b1110000,  -- 7
   0b1111111,  -- 8
   0b1111011,  -- 9
   0b0000000,  -- 10  Space
   0b0000001,  -- 11  '-'
   0b1100011,  -- 12  Degree
   0b1001110,  -- 13  'C'
   0b0111110]  -- 14  'V'

/-- `const int Space = 10;` -/
def Space : ℕ := 10
/-- `const int Minus = 11;` -/
def Minus : ℕ := 11
/-- `const int Degree = 12;` -/
def Degree : ℕ := 12
/-- `const int Celsius = 13;` -/
def Celsius : ℕ := 13
/-- `const int Vee = 14;` -/
def Vee : ℕ := 14

/-- Pin mask PIN5_bm (PF5, segment 1A). -/
def PIN5_bm : ℕ := 0x20
/-- Pin mask PIN4_bm (PF4, colon). -/
def PIN4_bm : ℕ := 0x10

/-- 2^16: wrap-around bound of 16-bit `int` / `unsigned int` on the AVR. -/
def U16 : ℕ := 65536

/-- 2^32: wrap-around bound of 32-bit `unsigned long` / `uint32_t`. -/
def U32 : ℕ := 4294967296

/-- `Char[i]` for a C `int` index `i`: `none` when the access is out of the
table (an out-of-bounds array read, undefined behaviour in C). -/
def charAtZ (i : ℤ) : Option ℕ :=
  if i < 0 then none else List.get? Char i.toNat

/-- One write/toggle operation on the display ports, in the order the
handler issues them.  `toggleDigits` is the loop
`for (int p=0; p<4; p++) Digit[p]->OUTTGL = 0xFF;`, `toggleE` is
`PORTE.OUTTGL = PIN0_bm | PIN1_bm;` (the two COM backplane lines), and
`toggleF` is `PORTF.OUTTGL = PIN5_bm | PIN4_bm;` (segment 1A and colon).
`writeDigit p v` is `Digit[p]->OUT = v;` and `writeF v` is `PORTF.OUT = v;`
(`none` marks a value obtained from an out-of-bounds `Char` read). -/
inductive PortOp where
  | toggleDigits
  | toggleE
  | toggleF
  | writeDigit (slot : Fin 4) (pattern : Option ℕ)
  | writeF (value : Option ℕ)
deriving DecidableEq

/-- The display lines driven by the handler: the 8 segment pins of each of
the 4 digit ports, the two COM backplane pins PE0/PE1, and the two
auxiliary pins PF5 (segment 1A) and PF4 (colon). -/
inductive Line where
  | seg (slot : Fin 4) (bit : Fin 8)
  | com0
  | com1
  | seg1A
  | colonLine
deriving DecidableEq

/-- Which lines a port operation inverts.  Only the three `OUTTGL` writes
invert lines; `OUT` writes set absolute levels. -/
def togglesLine : PortOp → Line → Bool
  | .toggleDigits, .seg _ _ => true
  | .toggleE, .com0 => true
  | .toggleE, .com1 => true
  | .toggleF, .seg1A => true
  | .toggleF, .colonLine => true
  | _, _ => false

/-- `true` exactly on the three `OUTTGL` operations. -/
def isToggle : PortOp → Bool
  | .toggleDigits => true
  | .toggleE => true
  | .toggleF => true
  | _ => false

/-- Number of times the operations in `ops` invert line `l`. -/
def invCount (ops : List PortOp) (l : Line) : ℕ :=
  (ops.filter (fun op => togglesLine op l)).length

/-- The three toggle operations issued at the top of every interrupt. -/
def toggleOps : List PortOp := [.toggleDigits, .toggleE, .toggleF]

/-- `DisplayTime(unsigned long halfsecs)`.  `tw` is the build-time
`TWELVEHOUR` choice: `hours = (halfsecs/7200) % 12 + 1` when defined,
`hours = (halfsecs/7200) % 24` otherwise. -/
def displayTime (tw : Bool) (halfsecs : ℕ) : List PortOp :=
  let minutes := (halfsecs / 120) % 60
  let hours := if tw then (halfsecs / 7200) % 12 + 1 else (halfsecs / 7200) % 24
  let units := List.get? Char (minutes % 10)
  let colon := (halfsecs % 2) <<< 4
  [.writeDigit 0 (List.get? Char (hours / 10)),
   .writeDigit 1 (List.get? Char (hours % 10)),
   .writeDigit 2 (List.get? Char (minutes / 10)),
   .writeDigit 3 units,
   .writeF (units.map (fun u => ((u >>> 1) &&& PIN5_bm) ||| colon))]

/-- `DisplayVoltage()` as a function of the 16-bit ADC conversion result:
`uint16_t voltage = adc_reading/50;` then the four digit writes and the
PORTF write (`no colon`). -/
def displayVoltage (adcReading : ℕ) : List PortOp :=
  let voltage := (adcReading % U16) / 50
  let units := List.get? Char Vee
  [.writeDigit 0 (List.get? Char Space),
   .writeDigit 1 ((List.get? Char (voltage / 10)).map (fun g => g ||| 0x80)),
   .writeDigit 2 (List.get? Char (voltage % 10)),
   .writeDigit 3 units,
   .writeF (units.map (fun u => (u >>> 1) &&& PIN5_bm))]

/-- `(uint32_t)(offset - adc_reading)`: 16-bit unsigned subtraction (wraps
mod 2^16), then zero-extension to 32 bits. -/
def tempDiff (offset adcReading : ℕ) : ℕ :=
  (offset % U16 + U16 - adcReading % U16) % U16

/-- `uint32_t kelvin = ((uint32_t)(offset - adc_reading) * slope + 0x0800) >> 12;`
The product, sum and shift are 32-bit unsigned. -/
def tempKelvin (offset slope adcReading : ℕ) : ℕ :=
  ((tempDiff offset adcReading * (slope % U16) + 0x0800) % U32) >>> 12

/-- The Arduino `abs` macro `((x)>0?(x):-(x))` evaluated at `uint32_t`:
unary minus is 32-bit two's complement. -/
def absU32 (v : ℕ) : ℕ :=
  if 0 < v % U32 then v % U32 else (U32 - v % U32) % U32

/-- Conversion of a `uint32_t` value to the AVR's 16-bit signed `int`
(modular reduction, then two's-complement reinterpretation). -/
def toSigned16 (v : ℕ) : ℤ :=
  if v % U16 < 32768 then ((v % U16 : ℕ) : ℤ) else ((v % U16 : ℕ) : ℤ) - 65536

/-- `int celsius = abs(kelvin - 273);` — `kelvin - 273` is `uint32_t`
arithmetic, `abs` is the Arduino macro, and the assignment truncates to the
16-bit `int`. -/
def tempCelsius (offset slope adcReading : ℕ) : ℤ :=
  toSigned16 (absU32 ((tempKelvin offset slope adcReading + U32 - 273) % U32))

/-- `DisplayTemp()` as a function of the calibration words
`SIGROW.TEMPSENSE1` (offset), `SIGROW.TEMPSENSE0` (slope) and the ADC
sample.  `celsius/10` and `celsius%10` are C `int` division and remainder
(truncation toward zero). -/
def displayTemp (offset slope adcReading : ℕ) : List PortOp :=
  let kelvin := tempKelvin offset slope adcReading
  let celsius := tempCelsius offset slope adcReading
  let units := List.get? Char Celsius
  [.writeDigit 0 (if kelvin < 273 then List.get? Char Minus
                  else charAtZ (Int.tdiv celsius 10)),
   .writeDigit 1 (charAtZ (Int.tmod celsius 10)),
   .writeDigit 2 (List.get? Char Degree),
   .writeDigit 3 units,
   .writeF (units.map (fun u => (u >>> 1) &&& PIN5_bm))]

/-- The two level-read button queries and the externally supplied ADC and
calibration values consumed during one interrupt. -/
structure Env where
  minsB : Bool
  hoursB : Bool
  adcVoltage : ℕ
  tempOffset : ℕ
  tempSlope : ℕ
  tempSample : ℕ
deriving DecidableEq

/-- The state owned by the handler: `static uint8_t cycles` and
`static unsigned long halfsecs`. -/
structure ClockState where
  cycles : ℕ
  halfsecs : ℕ
deriving DecidableEq

/-- `halfsecs = (halfsecs+1) % 172800;` (the increment is `unsigned long`). -/
def advance (h : ℕ) : ℕ := (h + 1) % U32 % 172800

/-- `halfsecs = ((halfsecs/7200)*60 + (halfsecs/120 + 1)%60)*120;`
(minutes-button snap, `unsigned long` arithmetic). -/
def minsSnap (h : ℕ) : ℕ :=
  (((h / 7200) * 60 + (h / 120 + 1) % 60) * 120) % U32

/-- `halfsecs = halfsecs + 7200;` (hours-button adjustment,
`unsigned long` arithmetic; note: no reduction mod 172800). -/
def hoursAdd (h : ℕ) : ℕ := (h + 7200) % U32

/-- The two button adjustments exactly as the handler sequences them:
two independent `if`s (the hours `if` is NOT an `else if`). -/
def adjustButtons (minsB hoursB : Bool) (h : ℕ) : ℕ :=
  let h1 := if minsB then minsSnap h else h
  if hoursB then hoursAdd h1 else h1

/-- Modelled from the spec: §4.2 steps 4–5 word the hours adjustment as
"Else if the hours button is asserted", i.e. an `else if` chained after the
minutes branch.  This definition follows the spec's words; the source
(`adjustButtons`) uses two independent `if`s instead. -/
def adjustElseIf (minsB hoursB : Bool) (h : ℕ) : ℕ :=
  if minsB then minsSnap h else if hoursB then hoursAdd h else h

/-- Which renderer the selection chain of lines 185–187 picks, read off the
source `if`/`else if` chain, as a function of the phase index
(`ticks = halfsecs % 120`, computed after the advance and before the button
adjustments) and the two button levels. -/
inductive Renderer where
  | time
  | voltage
  | temperature
deriving DecidableEq

/-- `if (MinsButton() || HoursButton() || ticks < 108) DisplayTime(halfsecs);
else if (ticks == 108) DisplayVoltage(); else if (ticks == 114) DisplayTemp();`
— the renderer chosen (`none` = no renderer call this half second). -/
def selectRenderer (minsB hoursB : Bool) (tk : ℕ) : Option Renderer :=
  if minsB = true ∨ hoursB = true ∨ tk < 108 then some .time
  else if tk = 108 then some .voltage
  else if tk = 114 then some .temperature
  else none

/-- One invocation of `ISR(RTC_PIT_vect)`: the three unconditional toggles,
then `cycles++; if (cycles < 32) return; cycles = 0;`, then on a
half-second boundary the time update, button adjustments and renderer
dispatch.  Returns the new state and the trace of port operations in
source order. -/
def isrStep (tw : Bool) (e : Env) (s : ClockState) : ClockState × List PortOp :=
  let cycles := (s.cycles + 1) % 256
  if cycles < 32 then ({ s with cycles := cycles }, toggleOps)
  else
    let h1 := advance s.halfsecs
    let tk := h1 % 120
    let h2 := adjustButtons e.minsB e.hoursB h1
    let ops :=
      if e.minsB = true ∨ e.hoursB = true ∨ tk < 108 then displayTime tw h2
      else if tk = 108 then displayVoltage e.adcVoltage
      else if tk = 114 then displayTemp e.tempOffset e.tempSlope e.tempSample
      else []
    (⟨0, h2⟩, toggleOps ++ ops)

/-- Run `n` consecutive interrupts, the `k`-th consuming `envs k`, starting
from state `s`; returns the final state and the concatenated trace. -/
def run (tw : Bool) (envs : ℕ → Env) : ℕ → ClockState → ClockState × List PortOp
  | 0, s => (s, [])
  | n + 1, s =>
    let r1 := isrStep tw (envs 0) s
    let r2 := run tw (fun k => envs (k + 1)) n r1.1
    (r2.1, r1.2 ++ r2.2)

/-- Environment with neither button pressed (measurement inputs zero). -/
def quietEnv : Env := ⟨false, false, 0, 0, 0, 0⟩

/-- Environment with only the minutes button pressed. -/
def envMins : Env := ⟨true, false, 0, 0, 0, 0⟩

/-- Environment with both buttons pressed. -/
def envBoth : Env := ⟨true, true, 0, 0, 0, 0⟩

/-- Environment with only the hours button pressed. -/
def envHours : Env := ⟨false, true, 0, 0, 0, 0⟩

/-! ### Helper lemmas -/

theorem invCount_append (a b : List PortOp) (l : Line) :
    invCount (a ++ b) l = invCount a l + invCount b l := by
  simp [invCount, List.filter_append]

theorem invCount_toggleOps (l : Line) : invCount toggleOps l = 1 := by
  cases l <;> rfl

theorem togglesLine_eq_false (op : PortOp) (l : Line) (h : isToggle op = false) :
    togglesLine op l = false := by
  cases op <;> simp [isToggle] at h <;> cases l <;> rfl

theorem invCount_eq_zero (ops : List PortOp)
    (h : (ops.all fun op => !isToggle op) = true) (l : Line) :
    invCount ops l = 0 := by
  induction ops with
  | nil => rfl
  | cons a t ih =>
    simp only [List.all_cons, Bool.and_eq_true, Bool.not_eq_true'] at h
    simp only [invCount, List.filter_cons, togglesLine_eq_false a l h.1,
      Bool.false_eq_true, if_false]
    exact ih (by simpa using h.2)

theorem displayTime_all_writes (tw : Bool) (h : ℕ) :
    ((displayTime tw h).all fun op => !isToggle op) = true := by
  cases tw <;> rfl

theorem displayVoltage_all_writes (a : ℕ) :
    ((displayVoltage a).all fun op => !isToggle op) = true := rfl

theorem displayTemp_all_writes (o s a : ℕ) :
    ((displayTemp o s a).all fun op => !isToggle op) = true := rfl

/-- Below a half-second boundary the handler only toggles and increments
`cycles`. -/
theorem isrStep_accum (tw : Bool) (e : Env) (c H : ℕ) (h : (c + 1) % 256 < 32) :
    isrStep tw e ⟨c, H⟩ = (⟨(c + 1) % 256, H⟩, toggleOps) := by
  simp [isrStep, h]

/-- On a half-second boundary the handler resets `cycles`, advances and
adjusts the counter, and appends the selected renderer's writes. -/
theorem isrStep_boundary (tw : Bool) (e : Env) (c H : ℕ)
    (h : ¬((c + 1) % 256 < 32)) :
    isrStep tw e ⟨c, H⟩ =
      (⟨0, adjustButtons e.minsB e.hoursB (advance H)⟩,
       toggleOps ++
         (if e.minsB = true ∨ e.hoursB = true ∨ advance H % 120 < 108 then
            displayTime tw (adjustButtons e.minsB e.hoursB (advance H))
          else if advance H % 120 = 108 then displayVoltage e.adcVoltage
          else if advance H % 120 = 114 then
            displayTemp e.tempOffset e.tempSlope e.tempSample
          else [])) := by
  simp [isrStep, h]

/-- Every interrupt's trace is the three toggles followed by writes only. -/
theorem isrStep_trace (tw : Bool) (e : Env) (s : ClockState) :
    ∃ rest, (isrStep tw e s).2 = toggleOps ++ rest ∧
      (rest.all fun op => !isToggle op) = true := by
  obtain ⟨c, H⟩ := s
  by_cases h : (c + 1) % 256 < 32
  · exact ⟨[], by rw [isrStep_accum tw e c H h]; simp, rfl⟩
  · rw [isrStep_boundary tw e c H h]
    refine ⟨_, rfl, ?_⟩
    split
    · exact displayTime_all_writes ..
    split
    · exact displayVoltage_all_writes ..
    split
    · exact displayTemp_all_writes ..
    · rfl

theorem isrStep_invCount (tw : Bool) (e : Env) (s : ClockState) (l : Line) :
    invCount (isrStep tw e s).2 l = 1 := by
  obtain ⟨rest, he, hall⟩ := isrStep_trace tw e s
  rw [he, invCount_append, invCount_toggleOps, invCount_eq_zero rest hall]

theorem run_invCount (tw : Bool) (envs : ℕ → Env) (n : ℕ) (s : ClockState)
    (l : Line) : invCount (run tw envs n s).2 l = n := by
  induction n generalizing envs s with
  | zero => rfl
  | succ n ih =>
    show invCount ((isrStep tw (envs 0) s).2 ++ _) l = n + 1
    rw [invCount_append, isrStep_invCount, ih]
    omega

/-- The minutes-button snap keeps an in-range counter in range (the largest
reachable value is 23:59 → 172680). -/
theorem minsSnap_le (x : ℕ) (hx : x < 172800) : minsSnap x ≤ 172680 := by
  unfold minsSnap
  have hb : ((x / 7200) * 60 + (x / 120 + 1) % 60) * 120 < U32 := by
    unfold U32; omega
  rw [Nat.mod_eq_of_lt hb]
  omega

theorem advance_lt (h : ℕ) : advance h < 172800 :=
  Nat.mod_lt _ (by norm_num)

/-- A nonnegative index below 15 is inside the glyph table. -/
theorem charAtZ_isSome_of_lt (n : ℕ) (hn : n < 15) :
    (charAtZ (n : ℤ)).isSome = true := by
  unfold charAtZ
  rw [if_neg (by omega), Int.toNat_natCast]
  rw [List.get?_eq_getElem?, List.getElem?_eq_getElem (by
    show n < Char.length
    have hcl : Char.length = 15 := rfl
    omega)]
  rfl

/-- State evolution over any number of quiet (no-button) interrupts, from a
sub-second phase `c` and an in-range counter `H`. -/
theorem run_quiet_state (tw : Bool) :
    ∀ (k c H : ℕ), c < 32 → H < 172800 →
      (run tw (fun _ => quietEnv) k ⟨c, H⟩).1 =
        ⟨(c + k) % 32, (H + (c + k) / 32) % 172800⟩ := by
  intro k
  induction k with
  | zero =>
    intro c H hc hH
    simp only [run, ClockState.mk.injEq]
    omega
  | succ k ih =>
    intro c H hc hH
    show (run tw (fun _ => quietEnv) k (isrStep tw quietEnv ⟨c, H⟩).1).1 = _
    by_cases hb : (c + 1) % 256 < 32
    · rw [isrStep_accum tw quietEnv c H hb]
      have hc1 : (c + 1) % 256 = c + 1 := Nat.mod_eq_of_lt (by omega)
      rw [hc1] at hb ⊢
      rw [ih (c + 1) H hb hH]
      simp only [ClockState.mk.injEq]
      omega
    · rw [isrStep_boundary tw quietEnv c H hb]
      have hc31 : c = 31 := by
        have : (c + 1) % 256 = c + 1 := Nat.mod_eq_of_lt (by omega)
        omega
      have hadv : advance H = (H + 1) % 172800 := by
        unfold advance U32
        have h1 : (H + 1) % 4294967296 = H + 1 := Nat.mod_eq_of_lt (by omega)
        rw [h1]
      have hq : adjustButtons quietEnv.minsB quietEnv.hoursB (advance H)
          = (H + 1) % 172800 := by
        rw [hadv]; rfl
      rw [show ((⟨0, adjustButtons quietEnv.minsB quietEnv.hoursB (advance H)⟩,
            toggleOps ++ _) : ClockState × List PortOp).1
          = ⟨0, (H + 1) % 172800⟩ from by rw [hq]]
      rw [ih 0 ((H + 1) % 172800) (by omega) (Nat.mod_lt _ (by norm_num))]
      simp only [ClockState.mk.injEq]
      subst hc31
      omega

/-! ### Claim theorems -/

/-- Claim C1: on every half-second boundary (a tick with `cycles = 31`), the
renderer choice is the first-match-wins chain over the phase index
`advance h % 120` (computed after the normal advance, before the button
adjustments) and the two button flags: any button → Time; else phase < 108 →
Time; else phase = 108 → Voltage; else phase = 114 → Temperature; else no
renderer runs (only the toggles are emitted).  The selection is a pure
function of those inputs, and two evaluations with identical inputs produce
identical output patterns. -/
theorem C1_renderer_selection (tw : Bool) (e : Env) (h : ℕ) :
    ((isrStep tw e ⟨31, h⟩).2.drop 3 =
      match selectRenderer e.minsB e.hoursB (advance h % 120) with
      | some .time => displayTime tw (adjustButtons e.minsB e.hoursB (advance h))
      | some .voltage => displayVoltage e.adcVoltage
      | some .temperature => displayTemp e.tempOffset e.tempSlope e.tempSample
      | none => []) ∧
    (e.minsB = true ∨ e.hoursB = true →
      selectRenderer e.minsB e.hoursB (advance h % 120) = some .time) ∧
    (e.minsB = false → e.hoursB = false → advance h % 120 < 108 →
      selectRenderer e.minsB e.hoursB (advance h % 120) = some .time) ∧
    (e.minsB = false → e.hoursB = false → advance h % 120 = 108 →
      selectRenderer e.minsB e.hoursB (advance h % 120) = some .voltage) ∧
    (e.minsB = false → e.hoursB = false → advance h % 120 = 114 →
      selectRenderer e.minsB e.hoursB (advance h % 120) = some .temperature) ∧
    (e.minsB = false → e.hoursB = false → 108 < advance h % 120 →
      advance h % 120 ≠ 114 →
      selectRenderer e.minsB e.hoursB (advance h % 120) = none) ∧
    isrStep tw e ⟨31, h⟩ = isrStep tw e ⟨31, h⟩ := by
  refine ⟨?_, ?_, ?_, ?_, ?_, ?_, rfl⟩
  · rw [isrStep_boundary tw e 31 h (by norm_num)]
    simp only [toggleOps, List.cons_append, List.nil_append, List.drop_succ_cons,
      List.drop_nil, List.drop_zero]
    by_cases h1 : e.minsB = true ∨ e.hoursB = true ∨ advance h % 120 < 108
    · simp [selectRenderer, h1]
    · push_neg at h1
      by_cases h2 : advance h % 120 = 108
      · simp [selectRenderer, h1.1, h1.2.1, h1.2.2, h2]
      by_cases h3 : advance h % 120 = 114
      · simp [selectRenderer, h1.1, h1.2.1, h1.2.2, h2, h3]
      · have h4 : ¬(advance h % 120 < 108) := by omega
        simp [selectRenderer, h1.1, h1.2.1, h4, h2, h3]
  · intro hb
    rcases hb with hb | hb <;> simp [selectRenderer, hb]
  · intro hm hb hlt
    simp [selectRenderer, hlt]
  · intro hm hb h108
    simp [selectRenderer, hm, hb, h108]
  · intro hm hb h114
    simp [selectRenderer, hm, hb, h114]
  · intro hm hb hgt hne
    unfold selectRenderer
    rw [if_neg (by simp only [hm, hb, Bool.false_eq_true, false_or]; omega)]
    rw [if_neg (by omega)]
    rw [if_neg hne]

/-- Witness for C1 at a concrete boundary with the minutes button pressed. -/
theorem C1_renderer_selection_witness :
    selectRenderer true false (advance 0 % 120) = some Renderer.time ∧
    (isrStep false envMins ⟨31, 0⟩).2.drop 3 =
      displayTime false (adjustButtons true false (advance 0)) := by
  have hc := C1_renderer_selection false envMins 0
  have hsel : selectRenderer envMins.minsB envMins.hoursB (advance 0 % 120)
      = some Renderer.time := hc.2.1 (Or.inl rfl)
  refine ⟨hsel, ?_⟩
  have h1 := hc.1
  rw [hsel] at h1
  exact h1

/-- Claim C2: over any run of 32 consecutive ticks with no button held,
`halfsecs` advances by exactly one unit (it changes only on the 32nd tick),
wrapping modulo 172800; in particular advancing from 172799 yields 0.  The
first conjunct gives the state after any number `k` of quiet ticks:
`cycles` cycles through 0..31 and `halfsecs` gains one unit per 32 ticks. -/
theorem C2_timeofday_advance (tw : Bool) :
    (∀ h k : ℕ,
      (run tw (fun _ => quietEnv) k ⟨0, h % 172800⟩).1 =
        ⟨k % 32, (h % 172800 + k / 32) % 172800⟩) ∧
    (run tw (fun _ => quietEnv) 32 ⟨0, 172799⟩).1.halfsecs = 0 := by
  constructor
  · intro h k
    have hq := run_quiet_state tw k 0 (h % 172800) (by norm_num)
      (Nat.mod_lt _ (by norm_num))
    simpa using hq
  · have hq := run_quiet_state tw 32 0 172799 (by norm_num) (by norm_num)
    rw [hq]

/-- Claim C3 counterexample: with the hours button pressed on the boundary
reaching 165600 (= 23:00:00.0), the handler leaves `halfsecs = 172800`,
outside [0, 172800) — the hours adjustment has no modulo. -/
theorem C3_counterexample :
    (isrStep false envHours ⟨31, 165599⟩).1.halfsecs = 172800 ∧
    ¬((isrStep false envHours ⟨31, 165599⟩).1.halfsecs < 172800) := by
  decide

/-- Claim C3 amended: at the end of a boundary invocation `halfsecs` is
below 180000; it is below 172800 (in range) whenever the hours button is
not pressed — the normal advance and the minutes snap keep it in range, and
only the hours adjustment can overshoot, by at most 7200.  Non-boundary
invocations leave `halfsecs` unchanged. -/
theorem C3_range_amended (tw : Bool) (e : Env) (h : ℕ) :
    (isrStep tw e ⟨31, h⟩).1.halfsecs < 180000 ∧
    (e.hoursB = false → (isrStep tw e ⟨31, h⟩).1.halfsecs < 172800) ∧
    (∀ c hh : ℕ, (c + 1) % 256 < 32 →
      (isrStep tw e ⟨c, hh⟩).1.halfsecs = hh) := by
  obtain ⟨mb, hb2, av, tof, tsl, tsa⟩ := e
  rw [isrStep_boundary tw ⟨mb, hb2, av, tof, tsl, tsa⟩ 31 h (by norm_num)]
  have hx : advance h < 172800 := advance_lt h
  have hsn : minsSnap (advance h) ≤ 172680 := minsSnap_le (advance h) hx
  refine ⟨?_, ?_, ?_⟩
  · show adjustButtons mb hb2 (advance h) < 180000
    cases mb <;> cases hb2 <;> simp [adjustButtons, hoursAdd, U32] <;> omega
  · intro hh
    show adjustButtons mb hb2 (advance h) < 172800
    simp only at hh
    subst hh
    cases mb <;> simp [adjustButtons] <;> omega
  · intro c hh hlt
    rw [isrStep_accum tw ⟨mb, hb2, av, tof, tsl, tsa⟩ c hh hlt]

/-- Witness for C3's amended statement at concrete boundary states. -/
theorem C3_range_amended_witness :
    (isrStep false quietEnv ⟨31, 0⟩).1.halfsecs < 172800 ∧
    (isrStep false envHours ⟨31, 165599⟩).1.halfsecs < 180000 :=
  ⟨(C3_range_amended false quietEnv 0).2.1 rfl,
   (C3_range_amended false envHours 165599).1⟩

/-- Claim C4 counterexample: a minutes-button tick-through from
`halfsecs = 172799` (23:59:59.5) wraps through midnight, so the hour
component falls from 23 to 0 — the tick-through does not "never decrease
the hour component". -/
theorem C4_counterexample :
    (172799 : ℕ) / 7200 = 23 ∧
    (isrStep false envMins ⟨31, 172799⟩).1.halfsecs = 120 ∧
    (isrStep false envMins ⟨31, 172799⟩).1.halfsecs / 7200 = 0 := by
  decide

/-- Claim C4 amended: relative to the post-advance counter `advance h` (the
value the snap operates on), a minutes-button boundary lands on a whole
minute, sets the minute component to (minute + 1) mod 60, and leaves the
hour component unchanged — so the snap itself never decreases the hour;
the hour can only fall through the midnight wrap of the preceding normal
advance. -/
theorem C4_minutes_snap_amended (tw : Bool) (e : Env) (h : ℕ)
    (hm : e.minsB = true) (hb : e.hoursB = false) :
    (isrStep tw e ⟨31, h⟩).1.halfsecs % 120 = 0 ∧
    ((isrStep tw e ⟨31, h⟩).1.halfsecs / 120) % 60
      = ((advance h / 120) % 60 + 1) % 60 ∧
    (isrStep tw e ⟨31, h⟩).1.halfsecs / 7200 = advance h / 7200 := by
  rw [isrStep_boundary tw e 31 h (by norm_num)]
  show adjustButtons e.minsB e.hoursB (advance h) % 120 = 0 ∧ _ ∧ _
  unfold adjustButtons
  rw [hm, hb]
  simp only [if_true, Bool.false_eq_true, if_false]
  have hx : advance h < 172800 := advance_lt h
  unfold minsSnap
  have hbnd : ((advance h / 7200) * 60 + (advance h / 120 + 1) % 60) * 120 < U32 := by
    unfold U32; omega
  rw [Nat.mod_eq_of_lt hbnd]
  omega

/-- Witness for C4's amended statement at a concrete input. -/
theorem C4_minutes_snap_amended_witness :
    (isrStep false envMins ⟨31, 0⟩).1.halfsecs % 120 = 0 ∧
    ((isrStep false envMins ⟨31, 0⟩).1.halfsecs / 120) % 60
      = ((advance 0 / 120) % 60 + 1) % 60 ∧
    (isrStep false envMins ⟨31, 0⟩).1.halfsecs / 7200 = advance 0 / 7200 :=
  C4_minutes_snap_amended false envMins 0 rfl rfl

/-- Claim C5 counterexample: the hours adjustment is NOT an `else if` — with
both buttons pressed on the boundary from `halfsecs = 0`, the code applies
the minutes snap (→ 120) and then also adds 7200, ending at 7320, while the
spec's else-if chain (`adjustElseIf`) would end at 120. -/
theorem C5_counterexample :
    (isrStep false envBoth ⟨31, 0⟩).1.halfsecs = 7320 ∧
    adjustElseIf envBoth.minsB envBoth.hoursB (advance 0) = 120 ∧
    (7320 : ℕ) ≠ 120 := by
  decide

/-- Claim C5 amended: the hours adjustment is an independent `if`, evaluated
regardless of the minutes button; whenever the hours button is pressed on a
boundary it adds exactly 7200 to the (possibly minutes-snapped) counter,
leaving the sub-minute component and the minute component unchanged. -/
theorem C5_hours_add_amended (tw : Bool) (e : Env) (h : ℕ)
    (hb : e.hoursB = true) :
    (isrStep tw e ⟨31, h⟩).1.halfsecs
      = (if e.minsB then minsSnap (advance h) else advance h) + 7200 ∧
    ((if e.minsB then minsSnap (advance h) else advance h) + 7200) % 120
      = (if e.minsB then minsSnap (advance h) else advance h) % 120 ∧
    (((if e.minsB then minsSnap (advance h) else advance h) + 7200) / 120) % 60
      = ((if e.minsB then minsSnap (advance h) else advance h) / 120) % 60 := by
  have hx : advance h < 172800 := advance_lt h
  have hy : (if e.minsB then minsSnap (advance h) else advance h) < 172800 := by
    split
    · exact lt_of_le_of_lt (minsSnap_le (advance h) hx) (by norm_num)
    · exact hx
  rw [isrStep_boundary tw e 31 h (by norm_num)]
  refine ⟨?_, by omega, by omega⟩
  show adjustButtons e.minsB e.hoursB (advance h) = _
  unfold adjustButtons hoursAdd
  rw [hb]
  simp only [if_true]
  rw [Nat.mod_eq_of_lt (show (if e.minsB = true then minsSnap (advance h)
    else advance h) + 7200 < U32 from by unfold U32; omega)]

/-- Witness for C5's amended statement at a concrete input. -/
theorem C5_hours_add_amended_witness :
    (isrStep false envBoth ⟨31, 0⟩).1.halfsecs
      = (if envBoth.minsB then minsSnap (advance 0) else advance 0) + 7200 :=
  (C5_hours_add_amended false envBoth 0 rfl).1

/-- Claim C6: every invocation of the handler starts with the three toggle
writes covering every driven line (all segment lines of all 4 digit ports,
both COM lines, and the two auxiliary lines), before any scheduler or
renderer work; the rest of the trace contains no toggles; each line is
inverted exactly once per tick; and after any `n` ticks (whatever the
button/measurement inputs and the starting state) each line has been
inverted exactly `n` times. -/
theorem C6_ac_drive_inversion (tw : Bool) (e : Env) (s : ClockState) (l : Line)
    (envs : ℕ → Env) (n : ℕ) (s0 : ClockState) :
    (isrStep tw e s).2.take 3 = toggleOps ∧
    (((isrStep tw e s).2.drop 3).all fun op => !isToggle op) = true ∧
    invCount (isrStep tw e s).2 l = 1 ∧
    invCount (run tw envs n s0).2 l = n := by
  obtain ⟨rest, he, hall⟩ := isrStep_trace tw e s
  refine ⟨?_, ?_, isrStep_invCount tw e s l, run_invCount tw envs n s0 l⟩
  · rw [he]; rfl
  · rw [he]
    exact hall

/-- Claim C7 (code bug): in the `TWELVEHOUR` build the hour field is
`(halfsecs/7200) % 12 + 1`, which renders "01" at midnight (`halfsecs = 0`)
instead of the specified "12", and "02" at 13:05 (`halfsecs = 94200`)
instead of "01" — the 12-hour mapping is off by one for every hour.  The
24-hour build renders "00:00" and "13:05" as specified. -/
theorem C7_twelvehour_rendering :
    ((0 : ℕ) / 7200) % 12 + 1 = 1 ∧
    displayTime true 0 =
      [.writeDigit 0 (some 0b1111110), .writeDigit 1 (some 0b0110000),
       .writeDigit 2 (some 0b1111110), .writeDigit 3 (some 0b1111110),
       .writeF (some 0b0100000)] ∧
    ((94200 : ℕ) / 7200) % 12 + 1 = 2 ∧
    displayTime true 94200 =
      [.writeDigit 0 (some 0b1111110), .writeDigit 1 (some 0b1101101),
       .writeDigit 2 (some 0b1111110), .writeDigit 3 (some 0b1011011),
       .writeF (some 0b0100000)] ∧
    displayTime false 0 =
      [.writeDigit 0 (some 0b1111110), .writeDigit 1 (some 0b1111110),
       .writeDigit 2 (some 0b1111110), .writeDigit 3 (some 0b1111110),
       .writeF (some 0b0100000)] ∧
    displayTime false 94200 =
      [.writeDigit 0 (some 0b0110000), .writeDigit 1 (some 0b1111001),
       .writeDigit 2 (some 0b1111110), .writeDigit 3 (some 0b1011011),
       .writeF (some 0b0100000)] := by
  decide

/-- Claim C8 counterexample: at `offset = sample` (here 1000, slope 1234)
the kelvin value is 0 but `celsius` is −273, not `|kelvin − 273| = 273`:
the Arduino `abs` macro is the identity on the unsigned operand and the
16-bit `int` conversion leaves −273.  Slot 0 does get the Minus glyph, but
slot 1's lookup `Char[celsius % 10] = Char[-3]` is out of the table
(no "73" digits are rendered). -/
theorem C8_celsius_counterexample :
    tempKelvin 1000 1234 1000 = 0 ∧
    tempCelsius 1000 1234 1000 = -273 ∧
    tempCelsius 1000 1234 1000 ≠ |(0 : ℤ) - 273| ∧
    (displayTemp 1000 1234 1000).get? 0 = some (.writeDigit 0 (some 0b0000001)) ∧
    (displayTemp 1000 1234 1000).get? 1 = some (.writeDigit 1 none) := by
  decide

/-- Claim C8 amended: the kelvin formula is exactly as claimed — the 32-bit
intermediate `diff * slope + 0x0800` never overflows (first conjunct) and
the `+0x0800` bias before the shift makes `kelvin` the round-to-nearest
(ties-up) quotient of `diff * slope` by 2^12 (second and third conjuncts).
But `celsius` is not `|kelvin − 273|`: whenever `sample = offset` (mod
2^16), `kelvin = 0` and `celsius = −273`; slot 0 shows the Minus glyph and
slot 1's lookup at index `celsius % 10 = −3` is out of the table. -/
theorem C8_conversion_amended (offset slope adcReading : ℕ) :
    tempDiff offset adcReading * (slope % U16) + 0x0800 < U32 ∧
    4096 * tempKelvin offset slope adcReading
      ≤ tempDiff offset adcReading * (slope % U16) + 0x0800 ∧
    tempDiff offset adcReading * (slope % U16) + 0x0800
      < 4096 * (tempKelvin offset slope adcReading + 1) ∧
    (adcReading % U16 = offset % U16 →
      tempKelvin offset slope adcReading = 0 ∧
      tempCelsius offset slope adcReading = -273 ∧
      (displayTemp offset slope adcReading).get? 0
        = some (.writeDigit 0 (List.get? Char Minus)) ∧
      (displayTemp offset slope adcReading).get? 1
        = some (.writeDigit 1 none)) := by
  have hd : tempDiff offset adcReading ≤ 65535 := by unfold tempDiff U16; omega
  have hs2 : slope % U16 ≤ 65535 := by unfold U16; omega
  have hp : tempDiff offset adcReading * (slope % U16) ≤ 65535 * 65535 :=
    Nat.mul_le_mul hd hs2
  have hlt : tempDiff offset adcReading * (slope % U16) + 0x0800 < U32 := by
    unfold U32; omega
  have hk : tempKelvin offset slope adcReading
      = (tempDiff offset adcReading * (slope % U16) + 0x0800) / 4096 := by
    unfold tempKelvin
    rw [Nat.mod_eq_of_lt hlt, Nat.shiftRight_eq_div_pow]
  refine ⟨hlt, by rw [hk]; omega, by rw [hk]; omega, ?_⟩
  intro heq
  have hd0 : tempDiff offset adcReading = 0 := by
    unfold tempDiff
    rw [heq]
    unfold U16
    omega
  have hk0 : tempKelvin offset slope adcReading = 0 := by
    rw [hk, hd0]
    norm_num
  have hc0 : tempCelsius offset slope adcReading = -273 := by
    unfold tempCelsius
    rw [hk0]
    decide
  refine ⟨hk0, hc0, ?_, ?_⟩
  · have e0 : (displayTemp offset slope adcReading).get? 0
        = some (.writeDigit 0 (if tempKelvin offset slope adcReading < 273
            then List.get? Char Minus
            else charAtZ (Int.tdiv (tempCelsius offset slope adcReading) 10))) := rfl
    rw [e0, hk0]
    norm_num
  · have e1 : (displayTemp offset slope adcReading).get? 1
        = some (.writeDigit 1
            (charAtZ (Int.tmod (tempCelsius offset slope adcReading) 10))) := rfl
    rw [e1, hc0]
    decide

/-- Witness for C8's amended statement at a concrete zero-delta input. -/
theorem C8_conversion_amended_witness :
    tempKelvin 1000 1234 1000 = 0 ∧ tempCelsius 1000 1234 1000 = -273 := by
  have hc := (C8_conversion_amended 1000 1234 1000).2.2.2 rfl
  exact ⟨hc.1, hc.2.1⟩

/-- Claim C9 counterexample: at scaled voltage 100 (ADC reading 5000), the
code writes `Char[voltage/10] | 0x80 = Char[10] | 0x80 = 0x80` (the Space
glyph with the decimal point) into slot 1, not the digit glyph for
`(v mod 100)/10 = 0` (which would be 0xFE) — there is no truncation to the
two least significant decimal digits. -/
theorem C9_truncation_counterexample :
    (5000 % U16) / 50 = 100 ∧
    (displayVoltage 5000).get? 1 = some (.writeDigit 1 (some 128)) ∧
    (List.get? Char (((5000 % U16) / 50 % 100) / 10)).map (fun g => g ||| 0x80)
      = some 254 ∧
    (128 : ℕ) ≠ 254 := by
  decide

/-- Claim C9 amended: for scaled voltages `v ≥ 100` the renderer still
writes all five values with no error path, and slot 2 is the digit
`v mod 10`; but slot 1 indexes `Char[v/10]` with `v/10 ≥ 10`: a non-digit
glyph (Space/Minus/Degree/C/V) for `100 ≤ v ≤ 149`, and an out-of-table
read for `v ≥ 150` — not the claimed truncation to `(v mod 100)/10`. -/
theorem C9_overflow_amended (adcReading : ℕ)
    (hv : 100 ≤ adcReading % U16 / 50) :
    (displayVoltage adcReading).length = 5 ∧
    (displayVoltage adcReading).get? 2
      = some (.writeDigit 2 (List.get? Char (adcReading % U16 / 50 % 10))) ∧
    adcReading % U16 / 50 % 10 < 10 ∧
    (displayVoltage adcReading).get? 1
      = some (.writeDigit 1 ((List.get? Char (adcReading % U16 / 50 / 10)).map
          (fun g => g ||| 0x80))) ∧
    10 ≤ adcReading % U16 / 50 / 10 ∧
    (adcReading % U16 / 50 ≤ 149 → adcReading % U16 / 50 / 10 ≤ 14) ∧
    (150 ≤ adcReading % U16 / 50 →
      List.get? Char (adcReading % U16 / 50 / 10) = none) := by
  refine ⟨rfl, rfl, by omega, rfl, by omega, by omega, ?_⟩
  intro h150
  rw [List.get?_eq_getElem?]
  apply List.getElem?_eq_none
  show Char.length ≤ _
  have hcl : Char.length = 15 := rfl
  omega

/-- Witness for C9's amended statement at ADC reading 5000 (v = 100). -/
theorem C9_overflow_amended_witness :
    (displayVoltage 5000).get? 1
      = some (.writeDigit 1 ((List.get? Char (5000 % U16 / 50 / 10)).map
          (fun g => g ||| 0x80))) ∧
    10 ≤ 5000 % U16 / 50 / 10 :=
  ⟨(C9_overflow_amended 5000 (by decide)).2.2.2.1,
   (C9_overflow_amended 5000 (by decide)).2.2.2.2.1⟩

/-- Claim C10 counterexample: with `offset = 4096`, `slope = 1000`,
`sample = 0` the kelvin value is 1000 ≥ 273 and `celsius = 727`, so the
slot-0 index `celsius/10 = 72` is not below `CharLen = 15` — the lookup
leaves the table. -/
theorem C10_glyph_index_counterexample :
    273 ≤ tempKelvin 4096 1000 0 ∧
    tempCelsius 4096 1000 0 = 727 ∧
    ¬(Int.tdiv (tempCelsius 4096 1000 0) 10 < 15) ∧
    (displayTemp 4096 1000 0).get? 0 = some (.writeDigit 0 none) := by
  decide

/-- Claim C10 amended: the universal in-table claim is false (see the
counterexample), but a bounded guarantee holds: whenever the computed
kelvin value lies in [273, 422], `celsius = kelvin − 273` is nonnegative
and at most 149, both glyph indices are nonnegative and below 15, and both
table lookups succeed.  Outside that band the indices are not guaranteed
in range — they can leave the table, as at the counterexample — though
`celsius` is the signed-16 truncation of kelvin − 273, so some kelvin
values outside the band still happen to yield in-range indices. -/
theorem C10_glyph_index_amended (offset slope adcReading : ℕ)
    (h1 : 273 ≤ tempKelvin offset slope adcReading)
    (h2 : tempKelvin offset slope adcReading ≤ 422) :
    tempCelsius offset slope adcReading
      = ((tempKelvin offset slope adcReading : ℤ)) - 273 ∧
    0 ≤ Int.tdiv (tempCelsius offset slope adcReading) 10 ∧
    Int.tdiv (tempCelsius offset slope adcReading) 10 < 15 ∧
    0 ≤ Int.tmod (tempCelsius offset slope adcReading) 10 ∧
    Int.tmod (tempCelsius offset slope adcReading) 10 < 15 ∧
    (charAtZ (Int.tdiv (tempCelsius offset slope adcReading) 10)).isSome = true ∧
    (charAtZ (Int.tmod (tempCelsius offset slope adcReading) 10)).isSome
      = true := by
  have e1 : (tempKelvin offset slope adcReading + U32 - 273) % U32
      = tempKelvin offset slope adcReading - 273 := by
    unfold U32; omega
  have e2 : absU32 (tempKelvin offset slope adcReading - 273)
      = tempKelvin offset slope adcReading - 273 := by
    unfold absU32 U32
    split <;> omega
  have e3 : toSigned16 (tempKelvin offset slope adcReading - 273)
      = ((tempKelvin offset slope adcReading - 273 : ℕ) : ℤ) := by
    unfold toSigned16 U16
    rw [Nat.mod_eq_of_lt (by omega), if_pos (by omega)]
  have hc : tempCelsius offset slope adcReading
      = ((tempKelvin offset slope adcReading - 273 : ℕ) : ℤ) := by
    unfold tempCelsius
    rw [e1, e2, e3]
  have htd : Int.tdiv ((tempKelvin offset slope adcReading - 273 : ℕ) : ℤ) 10
      = (((tempKelvin offset slope adcReading - 273) / 10 : ℕ) : ℤ) := rfl
  have htm : Int.tmod ((tempKelvin offset slope adcReading - 273 : ℕ) : ℤ) 10
      = (((tempKelvin offset slope adcReading - 273) % 10 : ℕ) : ℤ) := rfl
  refine ⟨by rw [hc]; omega, by rw [hc, htd]; omega, by rw [hc, htd]; omega,
    by rw [hc, htm]; omega, by rw [hc, htm]; omega, ?_, ?_⟩
  · rw [hc, htd]
    exact charAtZ_isSome_of_lt _ (by omega)
  · rw [hc, htm]
    exact charAtZ_isSome_of_lt _ (by omega)

/-- Witness for C10's amended statement at kelvin = 300 (celsius 27). -/
theorem C10_glyph_index_amended_witness :
    tempCelsius 300 4096 0 = ((tempKelvin 300 4096 0 : ℤ)) - 273 ∧
    (charAtZ (Int.tdiv (tempCelsius 300 4096 0) 10)).isSome = true := by
  have hc := C10_glyph_index_amended 300 4096 0 (by decide) (by decide)
  exact ⟨hc.1, hc.2.2.2.2.2.1⟩

end LCDClock
